import Mathlib

/-!
Verification development for the interruptible streaming-generation supervisor
of the ai-report-writer backend.

The first part embeds `backend/store/conversation_store_old.py` (the
supervisor: `processing`, `_generate_response`, `interrupt_current_task`,
`interupt_process`) as an explicit state machine over cooperative scheduling
steps.  The second part embeds `backend/core/01.py` (the `AgentWorkflow`
state machine), the third `backend/store/conversation_store.py` together with
`backend/agents/report_agent.py` (outline streaming), and the fourth the
message persistence layer of `backend/store/database.py`.
-/

namespace OldStore

/-- Role of a conversation turn, the `role` field of the history dicts. -/
inductive Role
  | user
  | assistant
  deriving DecidableEq, Repr

/-- One history record as appended by `conversation_store_old.py`
(`{"role": ..., "content": ..., "timestamp": ...}`; the timestamp carries no
logical content and is omitted). -/
structure Turn where
  role : Role
  content : String
  deriving DecidableEq, Repr

/-- One fragment produced by the generation source, i.e. one item pulled by
the `async for chunk in self.agent.run(...)` loop of `_generate_response`:
a `chunk` dict carrying text, a `done`/`complete` marker, or an exception
raised mid-stream by the source. -/
inductive Frag
  | chunk (text : String)
  | done
  | raiseErr (msg : String)
  deriving DecidableEq, Repr

/-- Events sent over the websocket by `conversation_store_old.py`:
`{"type": "chunk"}` (line 137), `{"type": "cancelled"}` (line 109),
`{"type": "error"}` (line 168) and `{"type": "interrupt"}` (line 211). -/
inductive WsEvent
  | chunk (content : String)
  | cancelled
  | errorEv (msg : String)
  | interruptEv (content : String)
  deriving DecidableEq, Repr

/-- Status of one `asyncio.Task` created for `_generate_response`. -/
inductive TaskStatus
  | running
  | finished
  deriving DecidableEq, Repr

/-- One generation task: its identity, whether it is still running, and the
fragments the generation source has not delivered to it yet. -/
structure GenTask where
  id : Nat
  status : TaskStatus
  script : List Frag
  deriving DecidableEq, Repr

/-- The per-conversation state of `conversation_store_old.ConversationStore`:
`self.history`, `self.full_response`, `self._cancel_event`,
`self.current_task`, plus the set of tasks ever created and the events sent
to the websocket. -/
structure StoreState where
  history : List Turn
  full_response : String
  cancel_event : Bool
  current_task : Option Nat
  tasks : List GenTask
  events : List WsEvent
  nextId : Nat
  deriving DecidableEq, Repr

/-- State of a freshly constructed store (`__init__`, lines 24-32). -/
def StoreState.init : StoreState :=
  { history := []
    full_response := ""
    cancel_event := false
    current_task := none
    tasks := []
    events := []
    nextId := 0 }

/-- Look a task up by id among the tasks created so far. -/
def findTask (s : StoreState) (tid : Nat) : Option GenTask :=
  s.tasks.find? (fun t => t.id == tid)

/-- `self.current_task and not self.current_task.done()` for a given id. -/
def taskRunning (s : StoreState) (tid : Nat) : Bool :=
  match findTask s tid with
  | some t => t.status == TaskStatus.running
  | none => false

/-- Replace the remaining script of task `tid` (the source delivered some of
its fragments). -/
def setScript (s : StoreState) (tid : Nat) (scr : List Frag) : StoreState :=
  { s with tasks := s.tasks.map (fun t => if t.id == tid then { t with script := scr } else t) }

/-- Termination of a task together with the `finally` block of
`_generate_response` (lines 172-175): the task cleanup clears
`self.current_task` only when the handle still points to the task itself. -/
def finishTask (s : StoreState) (tid : Nat) : StoreState :=
  let s1 := { s with tasks := s.tasks.map (fun t =>
    if t.id == tid then { t with status := TaskStatus.finished } else t) }
  if s1.current_task == some tid then { s1 with current_task := none } else s1

/-- The synchronous prefix of `ConversationStore.processing` (lines 85-101):
append the user turn to history when the input is non-empty
(`if user_input:`), create the generation task with a fresh identity and
store its handle in `self.current_task` — unconditionally overwriting
whatever handle was there.  `script` is the fragment stream the generation
source will deliver to the new task. -/
def processing (s : StoreState) (input : String) (script : List Frag) : StoreState :=
  let s1 := if input == "" then s
            else { s with history := s.history ++ [⟨Role.user, input⟩] }
  { s1 with
    tasks := s1.tasks ++ [⟨s1.nextId, TaskStatus.running, script⟩]
    current_task := some s1.nextId
    nextId := s1.nextId + 1 }

/-- One iteration of the `async for` loop of `_generate_response`
(lines 118-175) by task `tid`: pull the next fragment; if the cancel flag is
set, break out (line 122) and run the `finally` cleanup; otherwise process a
`chunk` (append to `full_response`, send a chunk event, lines 128-140), a
`done`/`complete` marker (fold `full_response` into history and clear it,
lines 142-160), or an exception from the source (send an error event,
lines 166-171, then the `finally` cleanup).  An exhausted source ends the
loop and runs the cleanup.  Steps of non-running tasks do nothing. -/
def stepTask (s : StoreState) (tid : Nat) : StoreState :=
  match findTask s tid with
  | none => s
  | some t =>
    if t.status == TaskStatus.running then
      match t.script with
      | [] => finishTask s tid
      | f :: rest =>
        if s.cancel_event then
          finishTask (setScript s tid rest) tid
        else
          match f with
          | Frag.chunk text =>
              setScript
                { s with
                  full_response := s.full_response ++ text
                  events := s.events ++ [WsEvent.chunk text] } tid rest
          | Frag.done =>
              setScript
                { s with
                  history := s.history ++ [⟨Role.assistant, s.full_response⟩]
                  full_response := "" } tid rest
          | Frag.raiseErr msg =>
              finishTask (setScript { s with events := s.events ++ [WsEvent.errorEv msg] } tid rest) tid
    else s

/-- `ConversationStore.interrupt_current_task` (lines 178-202).  When a
running current task exists: set the cancel event (line 185), cancel the task
(line 188) and wait for it with a 2.0s timeout (line 191).  `ack` is true
when the task acknowledges the cancellation within the timeout — its
`CancelledError` cleanup runs and the awaiting `processing` call sends the
`cancelled` notification (lines 105-112) — and false when `asyncio.wait_for`
times out and the task survives as a detached stale task.  Either way the
`finally` block (lines 195-197) clears the flag and the handle and the call
returns `True`.  With no running current task it returns `False` and changes
nothing (line 202). -/
def interrupt_current_task (s : StoreState) (ack : Bool) : Bool × StoreState :=
  match s.current_task with
  | some tid =>
      if taskRunning s tid then
        let s1 := { s with cancel_event := true }
        let s2 := if ack then
            let sa := finishTask s1 tid
            { sa with events := sa.events ++ [WsEvent.cancelled] }
          else s1
        (true, { s2 with cancel_event := false, current_task := none })
      else (false, s)
  | none => (false, s)

/-- `ConversationStore.interupt_process` (lines 205-215): unconditionally
fold the partial buffer into history as an assistant turn, clear the buffer
and send the interrupt notification. -/
def interupt_process (s : StoreState) : StoreState :=
  { s with
    history := s.history ++ [⟨Role.assistant, s.full_response⟩]
    full_response := ""
    events := s.events ++ [WsEvent.interruptEv "已中断当前生成"] }

/-- Supervisor-level actions: a `processing` call (its task-creating prefix),
one scheduling step of a generation task, an `interrupt_current_task` call
(with its drain outcome), and an `interupt_process` fold. -/
inductive Act
  | submit (input : String) (script : List Frag)
  | step (tid : Nat)
  | interrupt (ack : Bool)
  | fold
  deriving DecidableEq, Repr

/-- Apply one action to the store state. -/
def applyAct (s : StoreState) : Act → StoreState
  | Act.submit input script => processing s input script
  | Act.step tid => stepTask s tid
  | Act.interrupt ack => (interrupt_current_task s ack).2
  | Act.fold => interupt_process s

/-- Run a sequence of supervisor actions. -/
def runTrace (s : StoreState) (acts : List Act) : StoreState :=
  acts.foldl applyAct s

/-- Whether a task record is in the running substate. -/
def isRunningTask (t : GenTask) : Bool :=
  t.status == TaskStatus.running

/-- Number of generation tasks currently in the running substate. -/
def runningCount (s : StoreState) : Nat :=
  (s.tasks.filter isRunningTask).length

/-- Concatenation of a list of text fragments. -/
def concatAll : List String → String
  | [] => ""
  | c :: cs => c ++ concatAll cs

/-- Modelled from the spec: the stop-command flow of §4.1 — a stop phrase
received while a generation runs triggers `interrupt_current_task` and then
the `interupt_process` fold.  No caller of the two supervisor methods exists
in the repository source; the composition order is the one the spec
prescribes. -/
def handleStopCommand (s : StoreState) (ack : Bool) : StoreState :=
  interupt_process (interrupt_current_task s ack).2

end OldStore

namespace StrUtil

/-- Whether `p` starts the character list. -/
def startsChars : List Char → List Char → Bool
  | [], _ => true
  | _ :: _, [] => false
  | p :: ps, c :: cs => p == c && startsChars ps cs

/-- Whether `pat` occurs as a contiguous substring of the character list. -/
def containsChars (pat : List Char) : List Char → Bool
  | [] => pat.isEmpty
  | c :: cs => startsChars pat (c :: cs) || containsChars pat cs

/-- Split a character list on the newline character; like Python
`str.split` with an explicit separator, the result always has one more
part than there are separators. -/
def splitOnNewline : List Char → List (List Char)
  | [] => [[]]
  | c :: cs =>
      let r := splitOnNewline cs
      if c == '\n' then [] :: r
      else
        match r with
        | x :: xs => (c :: x) :: xs
        | [] => [[c]]

/-- Python `str.split('\n')`. -/
def splitLines (s : String) : List String :=
  (splitOnNewline s.data).map String.mk

end StrUtil

namespace Flow01

/-- The `State` enum of `backend/core/01.py` (lines 14-20). -/
inductive WState
  | idle
  | executing
  | awaitingUser
  | completed
  | interrupted
  deriving DecidableEq, Repr

/-- An `asyncio.Future` parked by `ask_user_decision`/`wait_for_user_input`;
only whether it is already done matters to `handle_user_response`. -/
structure Future where
  done : Bool
  deriving DecidableEq, Repr

/-- Messages sent to the client by `AgentWorkflow` via
`websocket.send_json` / `send_message`, keyed by their `type` field. -/
inductive WfEvent
  | status (content : String)
  | question (content : String)
  | errorEv (content : String)
  | interruptEv (content : String)
  | info (content : String)
  | completeEv (content : String)
  deriving DecidableEq, Repr

/-- The observable state of one `AgentWorkflow` (01.py lines 22-34):
`self.state`, `self.pending_future`, `context["history"]`,
`context["current_task"]`, plus the log of values delivered through
`pending_future.set_result` and the events sent to the client. -/
structure Workflow where
  state : WState
  pending_future : Option Future
  ctx_history : List String
  current_task : Option Nat
  resolvedLog : List String
  events : List WfEvent
  nextId : Nat
  deriving DecidableEq, Repr

/-- A freshly constructed workflow (`__init__`, lines 25-34). -/
def Workflow.init : Workflow :=
  { state := WState.idle
    pending_future := none
    ctx_history := []
    current_task := none
    resolvedLog := []
    events := []
    nextId := 0 }

/-- `self.pending_future and not self.pending_future.done()` (line 183). -/
def pendingActive (w : Workflow) : Bool :=
  match w.pending_future with
  | some f => !f.done
  | none => false

/-- `AgentWorkflow.start_workflow` (lines 60-77): enter `EXECUTING`, reset
the context (its history becomes the single entry built from the input),
create the execution task, and send a status message. -/
def start_workflow (w : Workflow) (initial_input : String) : Workflow :=
  { w with
    state := WState.executing
    ctx_history := ["开始: " ++ initial_input]
    current_task := some w.nextId
    nextId := w.nextId + 1
    events := w.events ++ [WfEvent.status ("开始执行任务: " ++ initial_input)] }

/-- `AgentWorkflow.handle_user_response` (lines 180-195): with a pending,
not-yet-done future the reply is set as its result (waking the waiting
coroutine), the future slot is cleared and the state returns to `EXECUTING`;
otherwise a single error event naming the unexpected situation is sent and
nothing else changes. -/
def handle_user_response (w : Workflow) (response : String) : Workflow :=
  if pendingActive w then
    { w with
      resolvedLog := w.resolvedLog ++ [response]
      pending_future := none
      state := WState.executing }
  else
    { w with events := w.events ++ [WfEvent.errorEv "当前没有等待中的决策"] }

/-- `AgentWorkflow.handle_interrupt` (lines 197-211): cancel the current
task when one is recorded, enter `INTERRUPTED` and send the interrupt
notification (its text is built from the user message). -/
def handle_interrupt (w : Workflow) (message : String) : Workflow :=
  { w with
    state := WState.interrupted
    events := w.events ++ [WfEvent.interruptEv message] }

/-- `AgentWorkflow.resume_workflow` (lines 213-224): re-enter `EXECUTING`,
send a status message and create a fresh execution task. -/
def resume_workflow (w : Workflow) : Workflow :=
  { w with
    state := WState.executing
    events := w.events ++ [WfEvent.status "恢复执行..."]
    current_task := some w.nextId
    nextId := w.nextId + 1 }

/-- `AgentWorkflow.process_message` (lines 36-58), the state-driven
dispatcher: `IDLE` starts a new workflow for any message, `EXECUTING`
treats any message as an interrupt, `AWAITING_USER` routes to
`handle_user_response`, `INTERRUPTED` resumes on the literal `"继续"` and
otherwise starts a new workflow; no branch handles `COMPLETED`. -/
def process_message (w : Workflow) (message : String) : Workflow :=
  match w.state with
  | WState.idle => start_workflow w message
  | WState.executing => handle_interrupt w message
  | WState.awaitingUser => handle_user_response w message
  | WState.interrupted =>
      if message == "继续" then resume_workflow w else start_workflow w message
  | WState.completed => w

/-- The `except Exception` branch of `AgentWorkflow.execute_workflow`
(lines 120-123): a generic error puts the workflow back into `IDLE` and
sends a single error message built from the exception text. -/
def execute_workflow_onError (w : Workflow) (msg : String) : Workflow :=
  { w with
    state := WState.idle
    events := w.events ++ [WfEvent.errorEv ("❌ 错误: " ++ msg)] }

/-- Modelled from the spec: the stop-phrase predicate of §4.1 (`a fixed set
of literal substrings (e.g. "stop", "cancel", "halt") checked via substring
containment`).  No stop-phrase classification exists anywhere in the
repository source. -/
def isStopCommand (text : String) : Bool :=
  ["stop", "cancel", "halt"].any (fun p => StrUtil.containsChars p.data text.data)

end Flow01

namespace NewStore

/-- Characters stripped by Python `str.strip()` and matched by the regex
class `\s` (the ASCII range relevant here). -/
def isPySpace (c : Char) : Bool :=
  c == ' ' || c == '\t' || c == '\n' || c == '\r' || c == Char.ofNat 11 || c == Char.ofNat 12

/-- Python `str.strip()`. -/
def pyStrip (s : String) : String :=
  String.mk (((s.data.dropWhile isPySpace).reverse.dropWhile isPySpace).reverse)

/-- Removal of the leading numbering matched by the regex
`^\d+[\.\)、]\s*` in `_parse_outline_from_response` (line 393). -/
def dropNumbering (l : List Char) : List Char :=
  let ds := l.takeWhile Char.isDigit
  if ds.isEmpty then l
  else
    match l.drop ds.length with
    | c :: rest =>
        if c == '.' || c == ')' || c == '、' then rest.dropWhile isPySpace else l
    | [] => l

/-- Removal of the leading bullet matched by the regex `^[-\*]\s*`
in `_parse_outline_from_response` (line 394). -/
def dropBullet (l : List Char) : List Char :=
  match l with
  | c :: rest => if c == '-' || c == '*' then rest.dropWhile isPySpace else l
  | [] => l

/-- Cleaning of one line (lines 392-394): strip it, then drop a leading
numbering and a leading bullet. -/
def cleanLine (line : String) : String :=
  String.mk (dropBullet (dropNumbering (pyStrip line).data))

/-- The line-based fallback parse (lines 388-401): split the stripped
response on newlines, clean each line, and keep the non-empty cleaned lines
shorter than 50 characters that do not open a code fence. -/
def parseLines (content : String) : List String :=
  let lines := StrUtil.splitLines (pyStrip content)
  let cleaned := lines.map cleanLine
  cleaned.filter (fun c =>
    (c != "") && decide (c.length < 50) && !(StrUtil.startsChars "```".data c.data))

/-- The span matched by the greedy regex `\[.*\]` with `re.DOTALL`
(line 380): from the first opening bracket to the last closing bracket
after it, if both exist. -/
def extractBracketSpan (content : String) : Option String :=
  let cs := content.data
  match cs.findIdx? (fun c => c == '[') with
  | none => none
  | some i =>
    let tail := cs.drop i
    match tail.reverse.findIdx? (fun c => c == ']') with
    | none => none
    | some k => some (String.mk (tail.take (tail.length - k)))

/-- One JSON string literal, as accepted by `json.loads`; `\uXXXX` escapes
are not modelled and count as a parse failure.  Returns the decoded string
and the unconsumed input. -/
def parseJsonStringAux : List Char → List Char → Option (String × List Char)
  | [], _ => none
  | '"' :: rest, acc => some (String.mk acc.reverse, rest)
  | '\\' :: e :: rest, acc =>
      if e == '"' then parseJsonStringAux rest ('"' :: acc)
      else if e == '\\' then parseJsonStringAux rest ('\\' :: acc)
      else if e == '/' then parseJsonStringAux rest ('/' :: acc)
      else if e == 'n' then parseJsonStringAux rest ('\n' :: acc)
      else if e == 't' then parseJsonStringAux rest ('\t' :: acc)
      else if e == 'r' then parseJsonStringAux rest ('\r' :: acc)
      else if e == 'b' then parseJsonStringAux rest (Char.ofNat 8 :: acc)
      else if e == 'f' then parseJsonStringAux rest (Char.ofNat 12 :: acc)
      else none
  | ['\\'], _ => none
  | c :: rest, acc => parseJsonStringAux rest (c :: acc)

/-- A JSON string literal starting with its opening quote. -/
def parseJsonString (l : List Char) : Option (String × List Char) :=
  match l with
  | '"' :: rest => parseJsonStringAux rest []
  | _ => none

/-- JSON whitespace. -/
def skipWs (l : List Char) : List Char :=
  l.dropWhile (fun c => c == ' ' || c == '\t' || c == '\n' || c == '\r')

/-- The comma-separated items of a JSON array of strings; the closing
bracket must be followed only by whitespace, as `json.loads` parses the
whole span.  `fuel` bounds the recursion by the input length. -/
def parseItems : Nat → List Char → List String → Option (List String)
  | 0, _, _ => none
  | Nat.succ fuel, l, acc =>
      match parseJsonString l with
      | none => none
      | some (str, rest) =>
          match skipWs rest with
          | ',' :: rest2 => parseItems fuel (skipWs rest2) (str :: acc)
          | ']' :: rest2 =>
              if (skipWs rest2).isEmpty then some ((str :: acc).reverse) else none
          | _ => none

/-- The model of `json.loads` restricted to the accepted shape of line 383:
a JSON array whose elements are all strings (`isinstance(sections, list)
and all(isinstance(s, str) for s in sections)`); every other document is a
parse failure, sending the caller to the line-based fallback. -/
def jsonStringArray? (s : String) : Option (List String) :=
  match skipWs s.data with
  | '[' :: rest =>
      match skipWs rest with
      | ']' :: tailc => if (skipWs tailc).isEmpty then some [] else none
      | rest2 => parseItems (s.length + 1) rest2 []
  | _ => none

/-- `ConversationStore._parse_outline_from_response`
(conversation_store.py lines 373-401): try the bracketed JSON array first;
otherwise parse line by line, returning those lines only when at least 3
survived, and the empty list otherwise. -/
def parse_outline_from_response (content : String) : List String :=
  match (extractBracketSpan content).bind jsonStringArray? with
  | some sections => sections
  | none =>
      let sections := parseLines content
      if 3 ≤ sections.length then sections else []

/-- The fixed default outline of lines 275, 337 and 349. -/
def defaultOutline : List String := ["引言", "主体", "结论"]

/-- The guard of lines 273-275 and 347-349: when parsing yielded no section
titles or fewer than 3, the default outline is used instead. -/
def chooseOutline (sections : List String) : List String :=
  if sections.isEmpty || sections.length < 3 then defaultOutline else sections

/-- Events yielded by `ReportAgent.run` with `stream=True`
(report_agent.py lines 182-197): accumulating `chunk` dicts and one final
`complete` dict. -/
inductive AgentEvent
  | chunk (content : String) (full_response : String)
  | complete (content : String)
  deriving DecidableEq, Repr

/-- The chunk events of the `async for` loop of `ReportAgent.run`
(lines 185-192): each non-empty model fragment is appended to the running
response and yielded. -/
def agentChunkEvents : List String → String → List AgentEvent
  | [], _ => []
  | c :: cs, acc => AgentEvent.chunk c (acc ++ c) :: agentChunkEvents cs (acc ++ c)

/-- `ReportAgent.run` with `stream=True` (lines 182-197).  `contents` are
the fragment texts produced by the underlying model stream (`agent.arun`);
fragments with empty content are skipped by the `if chunk.content:` guard.
When `raises` is true the underlying stream raises after delivering the
fragments, so the exception propagates out of the generator after the chunk
events; otherwise a final `complete` event carries the full response. -/
def agentRun (contents : List String) (raises : Bool) : List AgentEvent :=
  let nonEmpty := contents.filter (fun c => c != "")
  let chunks := agentChunkEvents nonEmpty ""
  if raises then chunks
  else chunks ++ [AgentEvent.complete (OldStore.concatAll nonEmpty)]

/-- Events yielded by `ConversationStore.generate_report_stream`
(conversation_store.py lines 226-307): streamed outline chunks (line 261),
the terminal `outline_complete` carrying the full content and the created
sections (line 294), and the terminal `error` of the `except` branch
(line 304). -/
inductive OutEvent
  | chunk (content : String) (sectionTag : String) (done : Bool)
  | outlineComplete (full_content : String) (sections : List String)
  | errorEv (message : String)
  deriving DecidableEq, Repr

/-- The body of the `async for` loop of `generate_report_stream`
(lines 257-300), processing the agent events in order while accumulating
`full_content`; besides the emitted events it returns the titles of the
`Section` records created through `add_section` (lines 279-286). -/
def streamBody : List AgentEvent → String → List OutEvent × List String
  | [], _ => ([], [])
  | AgentEvent.chunk text _ :: rest, full =>
      let r := streamBody rest (full ++ text)
      (OutEvent.chunk text "outline" false :: r.1, r.2)
  | AgentEvent.complete content :: rest, _ =>
      let sections := chooseOutline (parse_outline_from_response content)
      let r := streamBody rest content
      (OutEvent.outlineComplete content sections :: r.1, sections ++ r.2)

/-- `ConversationStore.generate_report_stream` (lines 226-307) composed
with `ReportAgent.run`: the loop over the agent events inside a
`try`/`except` whose handler yields a single `error` event carrying the
exception message.  Returns the emitted events and the created section
titles. -/
def generate_report_stream (contents : List String) (raises : Bool) (errMsg : String) :
    List OutEvent × List String :=
  let r := streamBody (agentRun contents raises) ""
  if raises then (r.1 ++ [OutEvent.errorEv errMsg], r.2) else r

/-- `ReportAgent.run` with `stream=False` (report_agent.py lines 198-200)
immediately raises `ValueError`. -/
def agentRunNonStream : Except String (List AgentEvent) :=
  Except.error "非流式模式请使用 chat() 方法"

/-- The section titles created by the non-streaming
`ConversationStore.generate_report` (lines 310-371): `sections` starts as
the default outline, the `async for` over `agent.run(..., stream=False)`
raises at once, the `except` swallows the error, and the default outline is
the list of sections created. -/
def generate_report_sections : List String :=
  match agentRunNonStream with
  | Except.error _ => defaultOutline
  | Except.ok _ => defaultOutline

/-- Chunk events of the outbound stream. -/
def isChunkEv : OutEvent → Bool
  | OutEvent.chunk _ _ _ => true
  | _ => false

/-- Terminal events of the outbound stream. -/
def isTerminalEv : OutEvent → Bool
  | OutEvent.outlineComplete _ _ => true
  | OutEvent.errorEv _ => true
  | _ => false

end NewStore

namespace Persistence

/-- Roles of `models/state.py MessageRole`. -/
inductive MessageRole
  | user
  | assistant
  | system
  deriving DecidableEq, Repr

/-- One message record, as held in `conversation.messages` and in the
`messages` table (`database.py`); the timestamp and metadata carry no
logical content here. -/
structure Message where
  id : String
  role : MessageRole
  content : String
  deriving DecidableEq, Repr

/-- `Database.save_message` (database.py lines 328-430) at the level of the
`messages` rows: an `INSERT`, falling back to an `UPDATE` keyed on the id
when the insert fails on a duplicate — a row with the same id is replaced
and a new row is appended otherwise. -/
def save_message (rows : List Message) (m : Message) : List Message :=
  if rows.any (fun r => r.id == m.id) then
    rows.map (fun r => if r.id == m.id then m else r)
  else rows ++ [m]

/-- `ConversationStore.add_message` (conversation_store.py lines 104-152)
with the generated uuid passed explicitly: build the message, append it to
the in-memory list (line 131) and save it to the database (line 143).
Returns the new in-memory list and the new database rows. -/
def add_message (messages : List Message) (rows : List Message)
    (newId : String) (role : MessageRole) (content : String) :
    List Message × List Message :=
  let m : Message := ⟨newId, role, content⟩
  (messages ++ [m], save_message rows m)

/-- `Database.delete_message` (database.py lines 453-456):
`DELETE FROM messages WHERE id = ?`. -/
def delete_message (rows : List Message) (msg_id : String) : List Message :=
  rows.filter (fun r => r.id != msg_id)

end Persistence

namespace OldStore

/-- Call discipline relative to a start state: every `processing` call in
the action sequence happens only when no generation task is running any
more (the previous task completed or its cancellation was drained). -/
inductive Disciplined : StoreState → List Act → Prop
  | nil (s : StoreState) : Disciplined s []
  | submit (s : StoreState) (input : String) (script : List Frag) (rest : List Act)
      (h : runningCount s = 0)
      (ih : Disciplined (applyAct s (Act.submit input script)) rest) :
      Disciplined s (Act.submit input script :: rest)
  | step (s : StoreState) (tid : Nat) (rest : List Act)
      (ih : Disciplined (applyAct s (Act.step tid)) rest) :
      Disciplined s (Act.step tid :: rest)
  | interrupt (s : StoreState) (ack : Bool) (rest : List Act)
      (ih : Disciplined (applyAct s (Act.interrupt ack)) rest) :
      Disciplined s (Act.interrupt ack :: rest)
  | fold (s : StoreState) (rest : List Act)
      (ih : Disciplined (applyAct s Act.fold) rest) :
      Disciplined s (Act.fold :: rest)

/-- Scenario state: a `processing` call on `s0` whose task's source will
deliver the chunks `cs` and then `rest`, after the scheduler let the task
consume exactly the chunks. -/
def afterChunks (s0 : StoreState) (input : String) (cs : List String) (rest : List Frag) :
    StoreState :=
  runTrace (processing s0 input (cs.map Frag.chunk ++ rest))
    (List.replicate cs.length (Act.step s0.nextId))

/-- Scenario state: a `processing` call on `s0` whose task's source delivers
the chunks `cs` and then raises, after the task ran to its end. -/
def afterSourceFailure (s0 : StoreState) (input : String) (cs : List String) (msg : String) :
    StoreState :=
  runTrace (processing s0 input (cs.map Frag.chunk ++ [Frag.raiseErr msg]))
    (List.replicate (cs.length + 1) (Act.step s0.nextId))

lemma interrupt_preserves_history_buffer (s : StoreState) (ack : Bool) :
    (interrupt_current_task s ack).2.history = s.history
    ∧ (interrupt_current_task s ack).2.full_response = s.full_response := by
  unfold interrupt_current_task
  rcases s.current_task with _ | tid
  · simp
  · by_cases hr : taskRunning s tid
    · cases ack <;> simp [hr, finishTask]
    · simp [hr]

lemma handleStopCommand_spec (s : StoreState) (ack : Bool) :
    (handleStopCommand s ack).history = s.history ++ [⟨Role.assistant, s.full_response⟩]
    ∧ (handleStopCommand s ack).full_response = "" := by
  have h := interrupt_preserves_history_buffer s ack
  unfold handleStopCommand interupt_process
  rw [h.1, h.2]
  exact ⟨rfl, rfl⟩

/-- C9: `interupt_process` folds unconditionally — it appends an assistant
turn carrying whatever the buffer holds (the empty string included), clears
the buffer and sends the interrupt event; hence two consecutive interrupts
append two assistant turns, the second one with empty content. -/
theorem c9_empty_buffer_fold (s : StoreState) :
    (interupt_process s).history = s.history ++ [⟨Role.assistant, s.full_response⟩]
    ∧ (interupt_process s).full_response = ""
    ∧ (interupt_process s).events = s.events ++ [WsEvent.interruptEv "已中断当前生成"]
    ∧ (interupt_process (interupt_process s)).history
        = s.history ++ [⟨Role.assistant, s.full_response⟩, ⟨Role.assistant, ""⟩] := by
  refine ⟨rfl, rfl, rfl, ?_⟩
  simp [interupt_process]

/-- C3: `interrupt_current_task` on a running current task sets the cancel
signal, cancels the task and waits with the bounded 2.0s timeout; whether
the task acknowledges in time (`ack = true`) or the wait times out
(`ack = false`, the stale task stays detached), the call returns `True`
with the handle cleared and the signal reset — it never blocks on the
generation source. -/
theorem c3_bounded_cancellation_drain (s : StoreState) (tid : Nat) (ack : Bool)
    (h : s.current_task = some tid) (hrun : taskRunning s tid = true) :
    (interrupt_current_task s ack).1 = true
    ∧ (interrupt_current_task s ack).2.current_task = none
    ∧ (interrupt_current_task s ack).2.cancel_event = false := by
  cases ack <;> simp [interrupt_current_task, h, hrun]

/-- C3 witness: the timeout path on a concrete store with one running task. -/
theorem c3_bounded_cancellation_drain_witness :
    (processing StoreState.init "a" [Frag.done]).current_task = some 0
    ∧ taskRunning (processing StoreState.init "a" [Frag.done]) 0 = true
    ∧ (interrupt_current_task (processing StoreState.init "a" [Frag.done]) false).1 = true
    ∧ (interrupt_current_task (processing StoreState.init "a" [Frag.done]) false).2.current_task
        = none := by
  refine ⟨by decide, by decide, ?_, ?_⟩
  · exact (c3_bounded_cancellation_drain _ 0 false (by decide) (by decide)).1
  · exact (c3_bounded_cancellation_drain _ 0 false (by decide) (by decide)).2.1

/-- C1 counterexample: two back-to-back `processing` calls with no
interrupt in between leave two generation tasks in the running substate at
the same instant, and the second call overwrote the stored handle while the
first task was still running — the submitter does overwrite `current_task`
speculatively. -/
theorem c1_counterexample :
    runningCount (runTrace StoreState.init
      [Act.submit "first" [Frag.chunk "x", Frag.done],
       Act.submit "second" [Frag.chunk "y", Frag.done]]) = 2
    ∧ (runTrace StoreState.init
      [Act.submit "first" [Frag.chunk "x", Frag.done],
       Act.submit "second" [Frag.chunk "y", Frag.done]]).current_task = some 1
    ∧ taskRunning (runTrace StoreState.init
      [Act.submit "first" [Frag.chunk "x", Frag.done],
       Act.submit "second" [Frag.chunk "y", Frag.done]]) 0 = true := by
  decide

lemma filter_map_running_le (l : List GenTask) (f : GenTask → GenTask)
    (h : ∀ t, isRunningTask (f t) = true → isRunningTask t = true) :
    ((l.map f).filter isRunningTask).length ≤ (l.filter isRunningTask).length := by
  induction l with
  | nil => simp
  | cons a l ih =>
      by_cases ha : isRunningTask (f a) = true
      · have hb := h a ha
        simp only [List.map_cons, List.filter_cons, ha, hb, if_true]
        exact Nat.succ_le_succ ih
      · have ha' : isRunningTask (f a) = false := by
          cases hv : isRunningTask (f a)
          · rfl
          · exact absurd hv ha
        cases hb : isRunningTask a
        · simp only [List.map_cons, List.filter_cons, ha', hb, Bool.false_eq_true, if_false]
          exact ih
        · simp only [List.map_cons, List.filter_cons, ha', hb, Bool.false_eq_true, if_false,
            if_true, List.length_cons]
          exact Nat.le_succ_of_le ih

lemma filter_map_running_eq (l : List GenTask) (f : GenTask → GenTask)
    (h : ∀ t, isRunningTask (f t) = isRunningTask t) :
    ((l.map f).filter isRunningTask).length = (l.filter isRunningTask).length := by
  induction l with
  | nil => simp
  | cons a l ih =>
      cases hb : isRunningTask a
      · simp only [List.map_cons, List.filter_cons, h a, hb, Bool.false_eq_true, if_false]
        exact ih
      · simp only [List.map_cons, List.filter_cons, h a, hb, if_true, List.length_cons]
        exact congrArg Nat.succ ih

lemma runningCount_setScript (s : StoreState) (tid : Nat) (scr : List Frag) :
    runningCount (setScript s tid scr) = runningCount s := by
  unfold runningCount setScript
  apply filter_map_running_eq
  intro t
  by_cases h : (t.id == tid) = true <;> simp [h, isRunningTask]

lemma finishTask_tasks (s : StoreState) (tid : Nat) :
    (finishTask s tid).tasks
      = s.tasks.map (fun t => if t.id == tid then { t with status := TaskStatus.finished } else t) := by
  simp only [finishTask]
  split <;> rfl

lemma runningCount_finishTask (s : StoreState) (tid : Nat) :
    runningCount (finishTask s tid) ≤ runningCount s := by
  unfold runningCount
  rw [finishTask_tasks]
  apply filter_map_running_le
  intro t h
  by_cases he : (t.id == tid) = true
  · simp [he, isRunningTask] at h
  · simpa [he] using h

lemma runningCount_step_le (s : StoreState) (tid : Nat) :
    runningCount (stepTask s tid) ≤ runningCount s := by
  unfold stepTask
  cases hf : findTask s tid with
  | none => exact Nat.le_refl _
  | some t =>
      by_cases hr : (t.status == TaskStatus.running) = true
      · simp only [hr, if_true]
        cases hscr : t.script with
        | nil => exact runningCount_finishTask s tid
        | cons f rest =>
            by_cases hc : s.cancel_event = true
            · simp only [hc, if_true]
              exact Nat.le_trans (runningCount_finishTask _ _)
                (Nat.le_of_eq (runningCount_setScript _ _ _))
            · have hc' : s.cancel_event = false := by
                cases hv : s.cancel_event
                · rfl
                · exact absurd hv hc
              simp only [hc', Bool.false_eq_true, if_false]
              cases f with
              | chunk text =>
                  exact Nat.le_of_eq (runningCount_setScript _ _ _)
              | done =>
                  exact Nat.le_of_eq (runningCount_setScript _ _ _)
              | raiseErr msg =>
                  exact Nat.le_trans (runningCount_finishTask _ _)
                    (Nat.le_of_eq (runningCount_setScript _ _ _))
      · simp only [hr, if_false]
        exact Nat.le_refl _

lemma runningCount_interrupt_le (s : StoreState) (ack : Bool) :
    runningCount (interrupt_current_task s ack).2 ≤ runningCount s := by
  unfold interrupt_current_task
  cases hct : s.current_task with
  | none => exact Nat.le_refl _
  | some tid =>
      by_cases hr : taskRunning s tid = true
      · cases ack
        · simp only [hr, if_true]
          exact Nat.le_refl _
        · simp only [hr, if_true]
          have h := runningCount_finishTask
            { s with cancel_event := true, current_task := some tid } tid
          simpa [runningCount] using h
      · simp only [hr, Bool.false_eq_true, if_false]
        exact Nat.le_refl _

lemma runningCount_submit (s : StoreState) (input : String) (script : List Frag) :
    runningCount (processing s input script) = runningCount s + 1 := by
  unfold processing runningCount
  by_cases h : (input == "") = true <;>
    simp [h, List.filter_append, isRunningTask]

lemma runningCount_fold (s : StoreState) :
    runningCount (interupt_process s) = runningCount s := rfl

lemma disciplined_running_le (s : StoreState) (acts : List Act) (hd : Disciplined s acts) :
    runningCount s ≤ 1 → ∀ k, runningCount (runTrace s (List.take k acts)) ≤ 1 := by
  induction hd with
  | nil s =>
      intro hs k
      simpa [runTrace] using hs
  | submit s input script rest h ih IH =>
      intro hs k
      cases k with
      | zero => simpa [runTrace] using hs
      | succ k =>
          have h1 : runningCount (applyAct s (Act.submit input script)) ≤ 1 := by
            simp [applyAct, runningCount_submit, h]
          simpa [runTrace, List.take_succ_cons] using IH h1 k
  | step s tid rest ih IH =>
      intro hs k
      cases k with
      | zero => simpa [runTrace] using hs
      | succ k =>
          have h1 : runningCount (applyAct s (Act.step tid)) ≤ 1 :=
            Nat.le_trans (runningCount_step_le s tid) hs
          simpa [runTrace, List.take_succ_cons] using IH h1 k
  | interrupt s ack rest ih IH =>
      intro hs k
      cases k with
      | zero => simpa [runTrace] using hs
      | succ k =>
          have h1 : runningCount (applyAct s (Act.interrupt ack)) ≤ 1 :=
            Nat.le_trans (runningCount_interrupt_le s ack) hs
          simpa [runTrace, List.take_succ_cons] using IH h1 k
  | fold s rest ih IH =>
      intro hs k
      cases k with
      | zero => simpa [runTrace] using hs
      | succ k =>
          have h1 : runningCount (applyAct s Act.fold) ≤ 1 := by
            simpa [applyAct, runningCount_fold] using hs
          simpa [runTrace, List.take_succ_cons] using IH h1 k

/-- C1 (amended): with two `processing` calls racing, the submitter
overwrites `current_task` unconditionally and two tasks run at once (see
the counterexample), so single-flight only holds under the call discipline
where every `processing` call is made after the previous task is no longer
running; along every such action sequence starting from a state with at
most one running task, at most one generation task is in the running
substate at every instant.  The second conjunct records the amended handle
policy: the submitter itself stores the new task's handle, whatever handle
was there before. -/
theorem c1_single_flight_disciplined (s : StoreState) (acts : List Act)
    (hd : Disciplined s acts) (hs : runningCount s ≤ 1) :
    (∀ k, runningCount (runTrace s (List.take k acts)) ≤ 1)
    ∧ ∀ (s1 : StoreState) (input : String) (script : List Frag),
        (processing s1 input script).current_task = some s1.nextId := by
  refine ⟨disciplined_running_le s acts hd hs, ?_⟩
  intro s1 input script
  unfold processing
  by_cases h : (input == "") = true <;> simp [h]

/-- C1 witness: a disciplined four-action trace, with the invariant
evaluated after all four actions. -/
theorem c1_single_flight_disciplined_witness :
    Disciplined StoreState.init
      [Act.submit "a" [Frag.done], Act.step 0, Act.step 0, Act.submit "b" []]
    ∧ runningCount StoreState.init ≤ 1
    ∧ runningCount (runTrace StoreState.init
        (List.take 4 [Act.submit "a" [Frag.done], Act.step 0, Act.step 0, Act.submit "b" []]))
        ≤ 1 := by
  have hd : Disciplined StoreState.init
      [Act.submit "a" [Frag.done], Act.step 0, Act.step 0, Act.submit "b" []] :=
    Disciplined.submit _ _ _ _ (by decide)
      (Disciplined.step _ _ _
        (Disciplined.step _ _ _
          (Disciplined.submit _ _ _ _ (by decide) (Disciplined.nil _))))
  exact ⟨hd, by decide,
    (c1_single_flight_disciplined _ _ hd (by decide)).1 4⟩

end OldStore


namespace OldStore

lemma find?_append_singleton (pre : List GenTask) (t : GenTask) (tid : Nat)
    (ht : t.id = tid) (hpre : ∀ u ∈ pre, u.id ≠ tid) :
    (pre ++ [t]).find? (fun u => u.id == tid) = some t := by
  induction pre with
  | nil => simp [List.find?_cons, ht]
  | cons a l ih =>
      have ha : (a.id == tid) = false := beq_eq_false_iff_ne.mpr (hpre a (by simp))
      rw [List.cons_append, List.find?_cons]
      simp only [ha]
      exact ih (fun u hu => hpre u (by simp [hu]))

lemma map_if_id_append (pre : List GenTask) (t : GenTask) (tid : Nat)
    (f : GenTask → GenTask) (hpre : ∀ u ∈ pre, u.id ≠ tid) :
    (pre ++ [t]).map (fun u => if u.id == tid then f u else u)
      = pre ++ [if t.id == tid then f t else t] := by
  rw [List.map_append]
  congr 1
  have h : ∀ u ∈ pre, (fun u => if u.id == tid then f u else u) u = id u := by
    intro u hu
    have hb : (u.id == tid) = false := beq_eq_false_iff_ne.mpr (hpre u hu)
    simp [hb]
  rw [List.map_congr_left h, List.map_id]

lemma stepTask_chunk (hist : List Turn) (fr : String) (ct : Option Nat)
    (pre : List GenTask) (tid : Nat) (c : String) (scr : List Frag)
    (ev : List WsEvent) (nid : Nat) (hpre : ∀ u ∈ pre, u.id ≠ tid) :
    stepTask ⟨hist, fr, false, ct, pre ++ [⟨tid, TaskStatus.running, Frag.chunk c :: scr⟩], ev, nid⟩ tid
      = ⟨hist, fr ++ c, false, ct, pre ++ [⟨tid, TaskStatus.running, scr⟩], ev ++ [WsEvent.chunk c], nid⟩ := by
  unfold stepTask findTask
  rw [find?_append_singleton pre _ tid rfl hpre]
  simp only [setScript]
  rw [map_if_id_append pre _ tid _ hpre]
  simp

lemma stepTask_raise (hist : List Turn) (fr : String) (tid : Nat)
    (pre : List GenTask) (msg : String) (scr : List Frag)
    (ev : List WsEvent) (nid : Nat) (hpre : ∀ u ∈ pre, u.id ≠ tid) :
    stepTask ⟨hist, fr, false, some tid, pre ++ [⟨tid, TaskStatus.running, Frag.raiseErr msg :: scr⟩], ev, nid⟩ tid
      = ⟨hist, fr, false, none, pre ++ [⟨tid, TaskStatus.finished, scr⟩], ev ++ [WsEvent.errorEv msg], nid⟩ := by
  unfold stepTask findTask
  rw [find?_append_singleton pre _ tid rfl hpre]
  simp only [setScript]
  rw [map_if_id_append pre _ tid _ hpre]
  simp only [finishTask]
  rw [map_if_id_append pre _ tid _ hpre]
  simp

lemma processing_eq (s0 : StoreState) (input : String) (script : List Frag)
    (hin : (input == "") = false) :
    processing s0 input script
      = ⟨s0.history ++ [⟨Role.user, input⟩], s0.full_response, s0.cancel_event, some s0.nextId,
         s0.tasks ++ [⟨s0.nextId, TaskStatus.running, script⟩], s0.events, s0.nextId + 1⟩ := by
  unfold processing
  simp [hin]

lemma runChunkSteps (cs : List String) : ∀ (hist : List Turn) (fr : String) (ct : Option Nat)
    (pre : List GenTask) (tid : Nat) (rest : List Frag) (ev : List WsEvent) (nid : Nat),
    (∀ u ∈ pre, u.id ≠ tid) →
    runTrace ⟨hist, fr, false, ct, pre ++ [⟨tid, TaskStatus.running, cs.map Frag.chunk ++ rest⟩], ev, nid⟩
        (List.replicate cs.length (Act.step tid))
      = ⟨hist, fr ++ concatAll cs, false, ct,
         pre ++ [⟨tid, TaskStatus.running, rest⟩], ev ++ cs.map WsEvent.chunk, nid⟩ := by
  induction cs with
  | nil =>
      intro hist fr ct pre tid rest ev nid hpre
      simp [runTrace, concatAll, String.append_empty]
  | cons c cs ih =>
      intro hist fr ct pre tid rest ev nid hpre
      simp only [List.length_cons, List.replicate_succ, runTrace, List.foldl_cons,
        List.map_cons, List.cons_append, applyAct]
      rw [stepTask_chunk hist fr ct pre tid c (cs.map Frag.chunk ++ rest) ev nid hpre]
      have h := ih hist (fr ++ c) ct pre tid rest (ev ++ [WsEvent.chunk c]) nid hpre
      simp only [runTrace] at h
      rw [h]
      simp [concatAll, String.append_assoc]

lemma afterChunks_eq (s0 : StoreState) (input : String) (cs : List String) (rest : List Frag)
    (hbuf : s0.full_response = "") (hce : s0.cancel_event = false)
    (hfresh : ∀ t ∈ s0.tasks, t.id ≠ s0.nextId) (hin : (input == "") = false) :
    afterChunks s0 input cs rest
      = ⟨s0.history ++ [⟨Role.user, input⟩], concatAll cs, false, some s0.nextId,
         s0.tasks ++ [⟨s0.nextId, TaskStatus.running, rest⟩],
         s0.events ++ cs.map WsEvent.chunk, s0.nextId + 1⟩ := by
  unfold afterChunks
  rw [processing_eq s0 input _ hin, hbuf, hce]
  rw [runChunkSteps cs (s0.history ++ [Turn.mk Role.user input]) "" (some s0.nextId)
    s0.tasks s0.nextId rest s0.events (s0.nextId + 1) hfresh]
  rw [String.empty_append]

lemma afterSourceFailure_eq (s0 : StoreState) (input : String) (cs : List String) (msg : String)
    (hbuf : s0.full_response = "") (hce : s0.cancel_event = false)
    (hfresh : ∀ t ∈ s0.tasks, t.id ≠ s0.nextId) (hin : (input == "") = false) :
    afterSourceFailure s0 input cs msg
      = ⟨s0.history ++ [⟨Role.user, input⟩], concatAll cs, false, none,
         s0.tasks ++ [⟨s0.nextId, TaskStatus.finished, []⟩],
         s0.events ++ cs.map WsEvent.chunk ++ [WsEvent.errorEv msg], s0.nextId + 1⟩ := by
  have hsplit : afterSourceFailure s0 input cs msg
      = applyAct (afterChunks s0 input cs [Frag.raiseErr msg]) (Act.step s0.nextId) := by
    unfold afterSourceFailure afterChunks runTrace
    rw [List.replicate_succ', List.foldl_append]
    simp
  rw [hsplit, afterChunks_eq s0 input cs [Frag.raiseErr msg] hbuf hce hfresh hin]
  simp only [applyAct]
  exact stepTask_raise (s0.history ++ [Turn.mk Role.user input]) (concatAll cs) s0.nextId
    s0.tasks msg [] (s0.events ++ cs.map WsEvent.chunk) (s0.nextId + 1) hfresh

/-- C2: when a generation that consumed the chunks `cs` into the partial
buffer is cancelled by a stop command (`interrupt_current_task` followed by
the `interupt_process` fold), exactly one new assistant turn whose content
is the concatenation of the fragments emitted before the cancellation
signal is appended to history, after which the buffer is cleared — for
either drain outcome, no fragment is dropped and none is folded twice. -/
theorem c2_no_lost_partial_output (s0 : StoreState) (input : String) (cs : List String)
    (rest : List Frag) (ack : Bool)
    (hbuf : s0.full_response = "") (hce : s0.cancel_event = false)
    (hfresh : ∀ t ∈ s0.tasks, t.id ≠ s0.nextId) (hin : (input == "") = false) :
    (handleStopCommand (afterChunks s0 input cs rest) ack).history
      = s0.history ++ [⟨Role.user, input⟩, ⟨Role.assistant, concatAll cs⟩]
    ∧ (handleStopCommand (afterChunks s0 input cs rest) ack).full_response = "" := by
  rw [afterChunks_eq s0 input cs rest hbuf hce hfresh hin]
  have h := handleStopCommand_spec
    ⟨s0.history ++ [Turn.mk Role.user input], concatAll cs, false, some s0.nextId,
     s0.tasks ++ [⟨s0.nextId, TaskStatus.running, rest⟩],
     s0.events ++ cs.map WsEvent.chunk, s0.nextId + 1⟩ ack
  refine ⟨?_, h.2⟩
  rw [h.1]
  simp

/-- C2 witness: the ABC scenario of the spec, on a fresh conversation. -/
theorem c2_no_lost_partial_output_witness :
    StoreState.init.full_response = ""
    ∧ StoreState.init.cancel_event = false
    ∧ (∀ t ∈ StoreState.init.tasks, t.id ≠ StoreState.init.nextId)
    ∧ (("hi" == "") = false)
    ∧ (handleStopCommand (afterChunks StoreState.init "hi" ["A", "B", "C"] [Frag.done]) true).history
        = StoreState.init.history
            ++ [⟨Role.user, "hi"⟩, ⟨Role.assistant, concatAll ["A", "B", "C"]⟩] :=
  ⟨rfl, rfl, by decide, rfl,
    (c2_no_lost_partial_output StoreState.init "hi" ["A", "B", "C"] [Frag.done] true rfl rfl
      (by decide) rfl).1⟩

/-- C5 counterexample: the source raises after the chunks A and B; the run
sends one error event but history gains no assistant turn — the partial
buffer is left in `full_response` and is not folded into history, against
the claim. -/
theorem c5_counterexample :
    (afterSourceFailure StoreState.init "hi" ["A", "B"] "boom").history
        = [⟨Role.user, "hi"⟩]
    ∧ (afterSourceFailure StoreState.init "hi" ["A", "B"] "boom").full_response = "AB"
    ∧ (afterSourceFailure StoreState.init "hi" ["A", "B"] "boom").events
        = [WsEvent.chunk "A", WsEvent.chunk "B", WsEvent.errorEv "boom"] := by
  decide

/-- C5 (amended): when the source raises mid-stream after emitting `cs`,
exactly one error event carrying the message is sent and the task handle is
cleared, but the accumulated partial buffer is retained in `full_response`
and is not appended to history (history keeps only the user turn); in the
workflow state machine of 01.py a generic error does set the phase to Idle
with a single error message. -/
theorem c5_source_failure_behavior (s0 : StoreState) (input : String) (cs : List String)
    (msg : String)
    (hbuf : s0.full_response = "") (hce : s0.cancel_event = false)
    (hfresh : ∀ t ∈ s0.tasks, t.id ≠ s0.nextId) (hin : (input == "") = false) :
    (afterSourceFailure s0 input cs msg).history = s0.history ++ [⟨Role.user, input⟩]
    ∧ (afterSourceFailure s0 input cs msg).full_response = concatAll cs
    ∧ (afterSourceFailure s0 input cs msg).events
        = s0.events ++ cs.map WsEvent.chunk ++ [WsEvent.errorEv msg]
    ∧ (afterSourceFailure s0 input cs msg).current_task = none
    ∧ ∀ (w : Flow01.Workflow) (m : String),
        (Flow01.execute_workflow_onError w m).state = Flow01.WState.idle
        ∧ (Flow01.execute_workflow_onError w m).events
            = w.events ++ [Flow01.WfEvent.errorEv ("❌ 错误: " ++ m)] := by
  rw [afterSourceFailure_eq s0 input cs msg hbuf hce hfresh hin]
  exact ⟨rfl, rfl, rfl, rfl, fun w m => ⟨rfl, rfl⟩⟩

/-- C5 witness: the amended behaviour evaluated on a concrete failing run. -/
theorem c5_source_failure_behavior_witness :
    StoreState.init.full_response = ""
    ∧ (("q" == "") = false)
    ∧ (afterSourceFailure StoreState.init "q" ["A"] "err").current_task = none
    ∧ (afterSourceFailure StoreState.init "q" ["A"] "err").full_response = concatAll ["A"] :=
  ⟨rfl, rfl,
    (c5_source_failure_behavior StoreState.init "q" ["A"] "err" rfl rfl (by decide) rfl).2.2.2.1,
    (c5_source_failure_behavior StoreState.init "q" ["A"] "err" rfl rfl (by decide) rfl).2.1⟩

end OldStore

/-- C6 counterexample: `process_message` at Idle starts a new workflow task
for a stop phrase too — the state becomes Executing, a task is created and
only a status acknowledgment is sent, no interrupted-style event — since no
stop-phrase classification exists in the code. -/
theorem c6_counterexample :
    Flow01.isStopCommand "stop" = true
    ∧ (Flow01.process_message Flow01.Workflow.init "stop").state = Flow01.WState.executing
    ∧ (Flow01.process_message Flow01.Workflow.init "stop").current_task = some 0
    ∧ (Flow01.process_message Flow01.Workflow.init "stop").events
        = [Flow01.WfEvent.status "开始执行任务: stop"] := by
  decide

/-- C6 (amended): submitting any text while the workflow is Idle — a stop
phrase included, as no stop-phrase classification exists — starts a new
workflow task and sets the phase to Executing; the interrupt operation on a
conversation with no running task returns false and leaves all state
unchanged. -/
theorem c6_stop_phrase_behavior (w : Flow01.Workflow) (msg : String)
    (hw : w.state = Flow01.WState.idle)
    (s : OldStore.StoreState) (ack : Bool)
    (hs : ∀ tid, s.current_task = some tid → OldStore.taskRunning s tid = false) :
    (Flow01.process_message w msg).state = Flow01.WState.executing
    ∧ (Flow01.process_message w msg).current_task = some w.nextId
    ∧ OldStore.interrupt_current_task s ack = (false, s) := by
  refine ⟨?_, ?_, ?_⟩
  · simp [Flow01.process_message, hw, Flow01.start_workflow]
  · simp [Flow01.process_message, hw, Flow01.start_workflow]
  · unfold OldStore.interrupt_current_task
    cases hct : s.current_task with
    | none => rfl
    | some tid => simp [hs tid hct]

/-- C6 witness: a fresh idle workflow receiving a stop phrase, and an
interrupt on a store with no task. -/
theorem c6_stop_phrase_behavior_witness :
    Flow01.Workflow.init.state = Flow01.WState.idle
    ∧ (Flow01.process_message Flow01.Workflow.init "stop").state = Flow01.WState.executing
    ∧ OldStore.interrupt_current_task OldStore.StoreState.init true
        = (false, OldStore.StoreState.init) :=
  ⟨rfl,
    (c6_stop_phrase_behavior Flow01.Workflow.init "stop" rfl OldStore.StoreState.init true
      (fun _ h => nomatch h)).1,
    (c6_stop_phrase_behavior Flow01.Workflow.init "stop" rfl OldStore.StoreState.init true
      (fun _ h => nomatch h)).2.2⟩

/-- C7: delivering a reply while no pending (unresolved) decision future
exists sends exactly one error event naming the unexpected situation and
changes nothing else — the phase is preserved and nothing is resolved;
with a pending future the reply resolves it exactly once, clears the slot
and the phase becomes Executing. -/
theorem c7_protocol_misuse (w : Flow01.Workflow) (response : String) :
    (Flow01.pendingActive w = false →
        Flow01.handle_user_response w response
          = { w with events := w.events ++ [Flow01.WfEvent.errorEv "当前没有等待中的决策"] })
    ∧ (Flow01.pendingActive w = true →
        Flow01.handle_user_response w response
          = { w with
              resolvedLog := w.resolvedLog ++ [response]
              pending_future := none
              state := Flow01.WState.executing }) := by
  constructor <;> intro h <;> simp [Flow01.handle_user_response, h]

/-- C7 witness: both branches on concrete workflows. -/
theorem c7_protocol_misuse_witness :
    Flow01.pendingActive Flow01.Workflow.init = false
    ∧ Flow01.handle_user_response Flow01.Workflow.init "ok"
        = { Flow01.Workflow.init with
            events := [Flow01.WfEvent.errorEv "当前没有等待中的决策"] }
    ∧ Flow01.pendingActive
        { Flow01.Workflow.init with
          state := Flow01.WState.awaitingUser, pending_future := some ⟨false⟩ } = true
    ∧ Flow01.handle_user_response
        { Flow01.Workflow.init with
          state := Flow01.WState.awaitingUser, pending_future := some ⟨false⟩ } "继续"
        = { Flow01.Workflow.init with
            state := Flow01.WState.executing, pending_future := none,
            resolvedLog := ["继续"] } := by
  refine ⟨rfl, ?_, rfl, ?_⟩
  · have h := (c7_protocol_misuse Flow01.Workflow.init "ok").1 rfl
    simpa using h
  · have h := (c7_protocol_misuse
      { Flow01.Workflow.init with
        state := Flow01.WState.awaitingUser, pending_future := some ⟨false⟩ } "继续").2 rfl
    simpa using h

/-- C8 counterexample: the database layer exposes `delete_message`, and it
removes a stored message record — a deletion API over history reachable by
any caller, against the claim. -/
theorem c8_counterexample :
    (⟨"m1", Persistence.MessageRole.assistant, "hello"⟩ : Persistence.Message)
        ∈ [(⟨"m1", Persistence.MessageRole.assistant, "hello"⟩ : Persistence.Message)]
    ∧ Persistence.delete_message
        [⟨"m1", Persistence.MessageRole.assistant, "hello"⟩] "m1" = [] := by
  decide

/-- C8 (amended): the conversation store itself only appends —
`add_message` extends the in-memory history by exactly the one new message,
leaving every earlier message in place — but the database layer
additionally exposes `delete_message`, which removes stored records (see
the counterexample). -/
theorem c8_append_only_store (messages rows : List Persistence.Message)
    (newId : String) (role : Persistence.MessageRole) (content : String) :
    (Persistence.add_message messages rows newId role content).1
      = messages ++ [⟨newId, role, content⟩]
    ∧ (Persistence.add_message messages rows newId role content).1.take messages.length
      = messages := by
  refine ⟨rfl, ?_⟩
  simp [Persistence.add_message, List.take_left]

namespace NewStore

lemma streamBody_chunkEvents (cs : List String) : ∀ (acc full : String) (tail : List AgentEvent),
    streamBody (agentChunkEvents cs acc ++ tail) full
      = ((cs.map (fun c => OutEvent.chunk c "outline" false))
          ++ (streamBody tail (full ++ OldStore.concatAll cs)).1,
         (streamBody tail (full ++ OldStore.concatAll cs)).2) := by
  induction cs with
  | nil =>
      intro acc full tail
      simp [agentChunkEvents, OldStore.concatAll, String.append_empty]
  | cons c cs ih =>
      intro acc full tail
      simp only [agentChunkEvents, List.cons_append, streamBody, List.append_eq]
      rw [ih (acc ++ c) (full ++ c) tail]
      simp [OldStore.concatAll, String.append_assoc]

lemma filter_terminal_chunks (cs : List String) :
    (cs.map (fun c => OutEvent.chunk c "outline" false)).filter isTerminalEv = [] := by
  induction cs with
  | nil => rfl
  | cons c cs ih => simp [List.filter_cons, isTerminalEv, ih]

lemma generate_report_stream_raises (contents : List String) (errMsg : String) :
    generate_report_stream contents true errMsg
      = (((contents.filter (fun c => c != "")).map (fun c => OutEvent.chunk c "outline" false))
          ++ [OutEvent.errorEv errMsg], []) := by
  unfold generate_report_stream agentRun
  simp only [if_true]
  have h := streamBody_chunkEvents (contents.filter (fun c => c != "")) "" "" []
  simp only [List.append_nil] at h
  rw [h]
  simp [streamBody]

lemma generate_report_stream_complete (contents : List String) (errMsg : String) :
    generate_report_stream contents false errMsg
      = (((contents.filter (fun c => c != "")).map (fun c => OutEvent.chunk c "outline" false))
          ++ [OutEvent.outlineComplete
                (OldStore.concatAll (contents.filter (fun c => c != "")))
                (chooseOutline (parse_outline_from_response
                  (OldStore.concatAll (contents.filter (fun c => c != "")))))],
         chooseOutline (parse_outline_from_response
           (OldStore.concatAll (contents.filter (fun c => c != ""))))) := by
  unfold generate_report_stream agentRun
  simp only [Bool.false_eq_true, if_false]
  rw [streamBody_chunkEvents (contents.filter (fun c => c != "")) ""
    "" [AgentEvent.complete (OldStore.concatAll (contents.filter (fun c => c != "")))]]
  simp [streamBody]

lemma chooseOutline_length (l : List String) : 3 ≤ (chooseOutline l).length := by
  unfold chooseOutline
  split
  · decide
  · rename_i h
    simp only [Bool.or_eq_true, decide_eq_true_eq, List.isEmpty_iff] at h
    push_neg at h
    omega

end NewStore

/-- C4: for every fragment sequence produced by the generation source —
including one that raises mid-stream — the events emitted by
`generate_report_stream` are zero or more chunk events followed by exactly
one terminal event (`outline_complete` or `error`), and no terminal event
is emitted twice. -/
theorem c4_event_stream_shape (contents : List String) (raises : Bool) (errMsg : String) :
    ∃ pre t, (NewStore.generate_report_stream contents raises errMsg).1 = pre ++ [t]
      ∧ pre.all NewStore.isChunkEv = true
      ∧ NewStore.isTerminalEv t = true
      ∧ ((NewStore.generate_report_stream contents raises errMsg).1.filter
          NewStore.isTerminalEv).length = 1 := by
  cases raises
  · rw [NewStore.generate_report_stream_complete contents errMsg]
    refine ⟨_, _, rfl, ?_, rfl, ?_⟩
    · simp only [List.all_eq_true, List.mem_map]
      rintro e ⟨c, hc, rfl⟩
      rfl
    · simp [List.filter_append, NewStore.filter_terminal_chunks, NewStore.isTerminalEv]
  · rw [NewStore.generate_report_stream_raises contents errMsg]
    refine ⟨_, _, rfl, ?_, rfl, ?_⟩
    · simp only [List.all_eq_true, List.mem_map]
      rintro e ⟨c, hc, rfl⟩
      rfl
    · simp [List.filter_append, NewStore.filter_terminal_chunks, NewStore.isTerminalEv]

/-- C10: report generation creates at least 3 section records on every
completion path — the streaming `outline_complete` branch always carries at
least 3 created sections, whenever parsing yields fewer than 3 titles the
fixed default outline of 3 titles is used instead, and the non-streaming
`generate_report` creates the 3 default sections. -/
theorem c10_outline_lower_bound (contents : List String) (content : String) :
    3 ≤ (NewStore.generate_report_stream contents false "").2.length
    ∧ ((NewStore.parse_outline_from_response content).length < 3 →
        NewStore.chooseOutline (NewStore.parse_outline_from_response content)
          = NewStore.defaultOutline)
    ∧ 3 ≤ NewStore.generate_report_sections.length := by
  refine ⟨?_, ?_, by decide⟩
  · rw [NewStore.generate_report_stream_complete]
    exact NewStore.chooseOutline_length _
  · intro h
    simp [NewStore.chooseOutline, h]

/-- C10 witness: an unparseable empty response falls back to the default
outline, and a concrete stream creates at least 3 sections. -/
theorem c10_outline_lower_bound_witness :
    (NewStore.parse_outline_from_response "").length < 3
    ∧ NewStore.chooseOutline (NewStore.parse_outline_from_response "")
        = NewStore.defaultOutline
    ∧ 3 ≤ (NewStore.generate_report_stream ["x"] false "").2.length :=
  ⟨by decide, (c10_outline_lower_bound ["x"] "").2.1 (by decide),
    (c10_outline_lower_bound ["x"] "").1⟩
